import Mathlib

/-
Verification of the derivation pipeline orchestrator
(src/src/derive/pipeline.rs and src/src/derive/purgeable.rs).

The orchestrator is embedded shallowly: the mpsc channel is an explicit
FIFO queue with a closed flag, the external decoding stages behind the
final `Attributes` stage are abstracted by the `PurgeableIterator`
record (the trait of purgeable.rs), and each Rust method becomes a pure
state-passing function on the `Pipeline` record.
-/

namespace Magi

/-- Bytes: an opaque byte blob (alloy_primitives::Bytes). -/
abbrev Bytes := List Nat

/-- Identity conversion Bytes::from applied to an already-built Bytes
value, as in push_batcher_transactions's map. -/
def bytesFrom (b : Bytes) : Bytes := b

/-- BatcherTransactionMessage: the ordered raw transaction blobs of one
L1 block together with that block's number (the message type sent on
the ingestion channel). -/
structure BatcherTransactionMessage where
  txs : List Bytes
  l1_origin : Nat
deriving DecidableEq, Repr

/-- The state of the mpsc ingestion channel: the queued messages in FIFO
order, and whether the consumer end has been dropped (torn down). -/
structure Channel where
  queue : List BatcherTransactionMessage
  closed : Bool
deriving DecidableEq, Repr

/-- mpsc::SendError: the error returned by Sender::send when the
receiver has been dropped; it carries the undelivered message. -/
inductive SendError where
  | sendError : BatcherTransactionMessage → SendError
deriving DecidableEq, Repr

/-- Sender::send: appends the message to the queue in FIFO order, or
fails when the consumer end is gone. -/
def Channel.send (c : Channel) (m : BatcherTransactionMessage) :
    Except SendError Channel :=
  if c.closed then Except.error (SendError.sendError m)
  else Except.ok { c with queue := c.queue ++ [m] }

/-- The error type surfaced by the orchestrator's Result-returning
methods (eyre::Report), here only ever built from a channel send
failure. -/
inductive EyreError where
  | send : SendError → EyreError
deriving DecidableEq, Repr

/-- The producer end of the ingestion channel; `chan` identifies which
channel it belongs to. -/
structure Sender where
  chan : Nat
deriving DecidableEq, Repr

/-- The consumer end of the ingestion channel; `chan` identifies which
channel it belongs to. -/
structure Receiver where
  chan : Nat
deriving DecidableEq, Repr

/-- mpsc::channel(): allocates a fresh channel (identified by `id`) and
returns its two ends together with its initial state, an empty open
queue. -/
def mpsc_channel (id : Nat) : Sender × Receiver × Channel :=
  (⟨id⟩, ⟨id⟩, ⟨[], false⟩)

/-- PurgeableIterator (purgeable.rs): a stage supporting the pull
operation `next` (returning the produced element, if ready, and the
updated stage state) and `purge`, which discards buffered state. The
decoding stages' internals are external collaborators, so the stage is
kept abstract: any `next`/`purge` pair over any state type σ. -/
structure PurgeableIterator (α σ : Type) where
  next : σ → Option α × σ
  purge : σ → σ

/-- Instrumentation: wraps a stage so that its state carries a counter
of how many times `next` has been pulled; used to state the
pull-at-most-once guarantees of the orchestrator. -/
def countingStage {α σ : Type} (stage : PurgeableIterator α σ) :
    PurgeableIterator α (σ × Nat) where
  next := fun s => ((stage.next s.1).1, ((stage.next s.1).2, s.2 + 1))
  purge := fun s => (stage.purge s.1, s.2)

/-- The Pipeline orchestrator (pipeline.rs): holds the ingestion
channel's producer end, the final `attributes` stage (of abstract state
type σ), and the one-value pending slot. The shared channel state is
carried alongside the sender so that submissions are observable. -/
structure Pipeline (α σ : Type) where
  batcher_transaction_sender : Sender
  channel : Channel
  attributes : σ
  pending_attributes : Option α
deriving DecidableEq, Repr

/-- Iterator::next for Pipeline (advance): if a value is pending, take
it (leaving the slot empty); otherwise pull once from the final
`attributes` stage. The stage's code is external, so it is passed in as
the `stage` transition record. -/
def Pipeline.next {α σ : Type} (stage : PurgeableIterator α σ)
    (p : Pipeline α σ) : Option α × Pipeline α σ :=
  if p.pending_attributes.isSome then
    (p.pending_attributes, { p with pending_attributes := none })
  else
    ((stage.next p.attributes).1,
     { p with attributes := (stage.next p.attributes).2 })

/-- Pipeline::peek: if nothing is pending, advance once and store the
outcome in the pending slot; return the slot's contents. -/
def Pipeline.peek {α σ : Type} (stage : PurgeableIterator α σ)
    (p : Pipeline α σ) : Option α × Pipeline α σ :=
  if p.pending_attributes.isNone then
    ((Pipeline.next stage p).1,
     { (Pipeline.next stage p).2 with
         pending_attributes := (Pipeline.next stage p).1 })
  else
    (p.pending_attributes, p)

/-- Pipeline::purge: purges the final `attributes` stage (which cascades
upstream inside the stage chain) and returns Ok(()). -/
def Pipeline.purge {α σ : Type} (stage : PurgeableIterator α σ)
    (p : Pipeline α σ) : Except EyreError Unit × Pipeline α σ :=
  (Except.ok (), { p with attributes := stage.purge p.attributes })

/-- Pipeline::push_batcher_transactions: builds a
BatcherTransactionMessage from the given blobs and origin block number
and sends it on the ingestion channel's producer end. -/
def Pipeline.push_batcher_transactions {α σ : Type} (p : Pipeline α σ)
    (txs : List Bytes) (l1_origin : Nat) :
    Except EyreError Unit × Pipeline α σ :=
  match p.channel.send { txs := txs.map bytesFrom, l1_origin := l1_origin } with
  | Except.ok c => (Except.ok (), { p with channel := c })
  | Except.error e => (Except.error (EyreError.send e), p)

/-- Driver for iterated peeking: `peekIter stage n p` is the result and
state of the (n + 1)-th of a run of consecutive peek calls starting
from p, with no intervening advance. -/
def Pipeline.peekIter {α σ : Type} (stage : PurgeableIterator α σ) :
    Nat → Pipeline α σ → Option α × Pipeline α σ
  | 0, p => Pipeline.peek stage p
  | n + 1, p => Pipeline.peekIter stage n (Pipeline.peek stage p).2

/-- Driver for a sequence of submit calls: pushes each (blobs, origin)
pair in order via push_batcher_transactions, stopping at the first
delivery error. -/
def Pipeline.pushAll {α σ : Type} (p : Pipeline α σ) :
    List (List Bytes × Nat) → Except EyreError Unit × Pipeline α σ
  | [] => (Except.ok (), p)
  | b :: rest =>
    match Pipeline.push_batcher_transactions p b.1 b.2 with
    | (Except.ok _, p2) => Pipeline.pushAll p2 rest
    | (Except.error e, p2) => (Except.error e, p2)

/-- PayloadAttributes: opaque to the orchestrator, which never inspects
its contents. -/
structure PayloadAttributes where
  payload : Nat
deriving DecidableEq, Repr

/-- A reference to the shared chain-sync State (Arc of RwLock of State),
opaque pass-through for the orchestrator. -/
abbrev StateRef := Nat

/-- A reference to the Config (Arc of Config), opaque pass-through. -/
abbrev ConfigRef := Nat

/-- BatcherTransactions stage wiring: holds the ingestion channel's
consumer end (its constructor argument in Pipeline::new). -/
structure BatcherTransactions where
  rx : Receiver
deriving DecidableEq, Repr

/-- Channels stage wiring: holds its upstream BatcherTransactions stage
and the config (its constructor arguments in Pipeline::new). -/
structure Channels where
  prev : BatcherTransactions
  config : ConfigRef
deriving DecidableEq, Repr

/-- Batches stage wiring: holds its upstream Channels stage, the shared
state and the config (its constructor arguments in Pipeline::new). -/
structure Batches where
  prev : Channels
  state : StateRef
  config : ConfigRef
deriving DecidableEq, Repr

/-- Attributes stage wiring: holds its upstream Batches stage, the
shared state, the config and the starting sequence number (its
constructor arguments in Pipeline::new). -/
structure Attributes where
  prev : Batches
  state : StateRef
  config : ConfigRef
  seq : Nat
deriving DecidableEq, Repr

/-- Pipeline::new: allocates the ingestion channel, builds the four
stages in dependency order — BatcherTransactions from the channel's
consumer end, then Channels, Batches, Attributes each from the previous
stage — and returns the orchestrator holding the producer end, the
final stage and an empty pending slot. `chanId` names the freshly
allocated channel. -/
def Pipeline.new (state : StateRef) (config : ConfigRef) (seq : Nat)
    (chanId : Nat) : Except EyreError (Pipeline PayloadAttributes Attributes) :=
  let tx := (mpsc_channel chanId).1
  let rx := (mpsc_channel chanId).2.1
  let chan := (mpsc_channel chanId).2.2
  let batcher_transactions := BatcherTransactions.mk rx
  let channels := Channels.mk batcher_transactions config
  let batches := Batches.mk channels state config
  let attributes := Attributes.mk batches state config seq
  Except.ok
    { batcher_transaction_sender := tx
      channel := chan
      attributes := attributes
      pending_attributes := none }

/-- Example stage for witnesses: always ready, yields 42 and ticks its
state. -/
def constStage : PurgeableIterator Nat Nat where
  next := fun s => (some 42, s + 1)
  purge := fun _ => 0

/-- Example stage that is never ready. -/
def noneStage : PurgeableIterator Nat Nat where
  next := fun s => (none, s + 1)
  purge := fun _ => 0

/-- Example stage that is not ready on its first pull and ready with 42
from the second pull on. -/
def ceStage : PurgeableIterator Nat Nat where
  next := fun s => (if s = 0 then none else some 42, s + 1)
  purge := fun _ => 0

/-- constStage with a pull counter. -/
def cStage : PurgeableIterator Nat (Nat × Nat) := countingStage constStage

/-- noneStage with a pull counter. -/
def nCStage : PurgeableIterator Nat (Nat × Nat) := countingStage noneStage

/-- ceStage with a pull counter. -/
def ceCStage : PurgeableIterator Nat (Nat × Nat) := countingStage ceStage

/-- A fresh empty open channel. -/
def chan0 : Channel := ⟨[], false⟩

/-- Example orchestrator state with an empty pending slot, an open empty
channel, stage state 0 and pull counter 0. -/
def pipeEmpty : Pipeline Nat (Nat × Nat) := ⟨⟨0⟩, chan0, (0, 0), none⟩

/-- Example orchestrator state with 7 buffered in the pending slot. -/
def pipeBuf : Pipeline Nat (Nat × Nat) := ⟨⟨0⟩, chan0, (0, 0), some 7⟩

/-- Example orchestrator state whose channel consumer has been torn
down. -/
def pipeClosed : Pipeline Nat (Nat × Nat) := ⟨⟨0⟩, ⟨[], true⟩, (0, 0), none⟩

/-- An example sequence of submissions. -/
def exBatches : List (List Bytes × Nat) :=
  [([[1]], 100), ([[2], [3]], 101)]

/-- After a peek, the pending slot holds exactly what the peek
returned. -/
theorem peek_pending_eq_result {α σ : Type} (stage : PurgeableIterator α σ)
    (p : Pipeline α σ) :
    (Pipeline.peek stage p).2.pending_attributes = (Pipeline.peek stage p).1 := by
  unfold Pipeline.peek
  by_cases h : p.pending_attributes.isNone <;> simp [h]

/-- Peeking a state whose pending slot is buffered returns the cached
value and changes nothing. -/
theorem peek_of_buffered {α σ : Type} (stage : PurgeableIterator α σ)
    (p : Pipeline α σ) (v : α) (h : p.pending_attributes = some v) :
    Pipeline.peek stage p = (some v, p) := by
  unfold Pipeline.peek
  simp [h]

/-- Advancing a state whose pending slot is buffered takes the cached
value, leaving the slot empty and everything else unchanged. -/
theorem next_of_buffered {α σ : Type} (stage : PurgeableIterator α σ)
    (p : Pipeline α σ) (v : α) (h : p.pending_attributes = some v) :
    Pipeline.next stage p = (some v, { p with pending_attributes := none }) := by
  unfold Pipeline.next
  simp [h]

/-- Claim C9: Pipeline::purge is declared to return a Result but always
returns success; its error case is unreachable. -/
theorem purge_always_ok {α σ : Type} (stage : PurgeableIterator α σ)
    (p : Pipeline α σ) :
    (Pipeline.purge stage p).1 = Except.ok () := rfl

/-- Claim C8: purge never closes, replaces or recreates the ingestion
channel: the producer end and the whole channel state (queued
not-yet-consumed batches included) are unchanged by purge. -/
theorem purge_preserves_channel {α σ : Type} (stage : PurgeableIterator α σ)
    (p : Pipeline α σ) :
    (Pipeline.purge stage p).2.batcher_transaction_sender =
      p.batcher_transaction_sender ∧
    (Pipeline.purge stage p).2.channel = p.channel := ⟨rfl, rfl⟩

/-- Claim C10: push_batcher_transactions leaves the pending slot, the
stage chain and the producer end unchanged; only the channel's queue
can change. -/
theorem push_preserves_pipeline_frame {α σ : Type} (p : Pipeline α σ)
    (txs : List Bytes) (l1_origin : Nat) :
    (Pipeline.push_batcher_transactions p txs l1_origin).2.pending_attributes =
      p.pending_attributes ∧
    (Pipeline.push_batcher_transactions p txs l1_origin).2.attributes =
      p.attributes ∧
    (Pipeline.push_batcher_transactions p txs l1_origin).2.batcher_transaction_sender =
      p.batcher_transaction_sender ∧
    (Pipeline.push_batcher_transactions p txs l1_origin).2.channel.closed =
      p.channel.closed := by
  unfold Pipeline.push_batcher_transactions Channel.send
  by_cases h : p.channel.closed <;> simp [h]

/-- Claim C7: for every shared-state reference, configuration and
starting sequence number, construction allocates the ingestion channel,
builds the four stages in dependency order wiring the first stage's
input to the channel's consumer end, and returns an orchestrator
holding the channel's producer end, the fully wired final stage and an
empty pending slot. -/
theorem pipeline_new_spec (state : StateRef) (config : ConfigRef)
    (seq : Nat) (chanId : Nat) :
    ∃ p, Pipeline.new state config seq chanId = Except.ok p ∧
      p.pending_attributes = none ∧
      p.batcher_transaction_sender = (mpsc_channel chanId).1 ∧
      p.channel = { queue := [], closed := false } ∧
      p.attributes =
        Attributes.mk
          (Batches.mk
            (Channels.mk
              (BatcherTransactions.mk (mpsc_channel chanId).2.1) config)
            state config)
          state config seq ∧
      p.attributes.prev.prev.prev.rx.chan = p.batcher_transaction_sender.chan := by
  refine ⟨_, rfl, rfl, rfl, rfl, rfl, rfl⟩

/-- Claim C2: one advance() call: when a value is buffered it removes
and returns exactly that value leaving the slot empty and pulling
nothing; otherwise it pulls exactly once from the final stage (the pull
counter rises by exactly one), returns that stage's result (not-ready
included, as none) and leaves the pending slot untouched; in every case
the stage is pulled at most once. -/
theorem advance_spec {α σ : Type} (stage : PurgeableIterator α σ)
    (p : Pipeline α (σ × Nat)) :
    (∀ v, p.pending_attributes = some v →
      Pipeline.next (countingStage stage) p =
        (some v, { p with pending_attributes := none })) ∧
    (p.pending_attributes = none →
      (Pipeline.next (countingStage stage) p).1 =
        (stage.next p.attributes.1).1 ∧
      (Pipeline.next (countingStage stage) p).2.pending_attributes = none ∧
      (Pipeline.next (countingStage stage) p).2.attributes.1 =
        (stage.next p.attributes.1).2 ∧
      (Pipeline.next (countingStage stage) p).2.attributes.2 =
        p.attributes.2 + 1) ∧
    (Pipeline.next (countingStage stage) p).2.attributes.2 ≤
      p.attributes.2 + 1 := by
  refine ⟨?_, ?_, ?_⟩
  · intro v hv
    unfold Pipeline.next
    simp [hv]
  · intro hv
    unfold Pipeline.next countingStage
    simp [hv]
  · unfold Pipeline.next countingStage
    by_cases hv : p.pending_attributes.isSome <;> simp [hv]

/-- Witness for advance_spec: both branches evaluated at concrete
states (7 buffered; nothing buffered over the always-ready stage). -/
theorem advance_spec_witness :
    Pipeline.next cStage pipeBuf =
      (some 7, { pipeBuf with pending_attributes := none }) ∧
    ((Pipeline.next cStage pipeEmpty).1 =
        (constStage.next pipeEmpty.attributes.1).1 ∧
     (Pipeline.next cStage pipeEmpty).2.pending_attributes = none ∧
     (Pipeline.next cStage pipeEmpty).2.attributes.1 =
        (constStage.next pipeEmpty.attributes.1).2 ∧
     (Pipeline.next cStage pipeEmpty).2.attributes.2 =
        pipeEmpty.attributes.2 + 1) :=
  ⟨(advance_spec constStage pipeBuf).1 7 rfl,
   (advance_spec constStage pipeEmpty).2.1 rfl⟩

/-- Claim C4: peek() on an empty pending slot pulls once via advance,
stores the outcome in the slot (a not-ready outcome is stored as the
empty slot) and returns the slot's contents; peek() on a buffered slot
returns the cached value without pulling and without changing any
state. -/
theorem peek_spec {α σ : Type} (stage : PurgeableIterator α σ)
    (p : Pipeline α σ) :
    (p.pending_attributes = none →
      Pipeline.peek stage p =
        ((stage.next p.attributes).1,
         { p with
             attributes := (stage.next p.attributes).2,
             pending_attributes := (stage.next p.attributes).1 })) ∧
    (∀ v, p.pending_attributes = some v →
      Pipeline.peek stage p = (some v, p)) := by
  constructor
  · intro hv
    unfold Pipeline.peek Pipeline.next
    simp [hv]
  · intro v hv
    exact peek_of_buffered stage p v hv

/-- Witness for peek_spec: both branches evaluated at concrete states
over the always-ready stage. -/
theorem peek_spec_witness :
    Pipeline.peek cStage pipeEmpty =
      ((cStage.next pipeEmpty.attributes).1,
       { pipeEmpty with
           attributes := (cStage.next pipeEmpty.attributes).2,
           pending_attributes := (cStage.next pipeEmpty.attributes).1 }) ∧
    Pipeline.peek cStage pipeBuf = (some 7, pipeBuf) :=
  ⟨(peek_spec cStage pipeEmpty).1 rfl,
   (peek_spec cStage pipeBuf).2 7 rfl⟩

/-- Claim C5: push_batcher_transactions builds the batch message from
the given blobs and origin and appends it to the ingestion channel's
queue, succeeding exactly when the consumer end is still alive; when
the consumer has been torn down it returns the delivery error and
changes nothing. -/
theorem push_batcher_transactions_spec {α σ : Type} (p : Pipeline α σ)
    (txs : List Bytes) (l1_origin : Nat) :
    (p.channel.closed = false →
      Pipeline.push_batcher_transactions p txs l1_origin =
        (Except.ok (),
         { p with channel :=
             { p.channel with queue :=
                 p.channel.queue ++ [⟨txs.map bytesFrom, l1_origin⟩] } })) ∧
    (p.channel.closed = true →
      Pipeline.push_batcher_transactions p txs l1_origin =
        (Except.error
           (EyreError.send (SendError.sendError ⟨txs.map bytesFrom, l1_origin⟩)),
         p)) ∧
    ((Pipeline.push_batcher_transactions p txs l1_origin).1 = Except.ok () ↔
      p.channel.closed = false) := by
  refine ⟨?_, ?_, ?_⟩
  · intro h
    unfold Pipeline.push_batcher_transactions Channel.send
    simp [h]
  · intro h
    unfold Pipeline.push_batcher_transactions Channel.send
    simp [h]
  · unfold Pipeline.push_batcher_transactions Channel.send
    by_cases h : p.channel.closed <;> simp [h]

/-- Witness for push_batcher_transactions_spec: a concrete submission
into an open channel and into a torn-down channel. -/
theorem push_batcher_transactions_spec_witness :
    Pipeline.push_batcher_transactions pipeEmpty [[1, 2]] 100 =
      (Except.ok (),
       { pipeEmpty with channel :=
           { pipeEmpty.channel with queue :=
               pipeEmpty.channel.queue ++ [⟨[[1, 2]].map bytesFrom, 100⟩] } }) ∧
    Pipeline.push_batcher_transactions pipeClosed [[1, 2]] 100 =
      (Except.error
         (EyreError.send (SendError.sendError ⟨[[1, 2]].map bytesFrom, 100⟩)),
       pipeClosed) :=
  ⟨(push_batcher_transactions_spec pipeEmpty [[1, 2]] 100).1 rfl,
   (push_batcher_transactions_spec pipeClosed [[1, 2]] 100).2.1 rfl⟩

/-- Counterexample to claim C1 as stated: from a state with 7 buffered
in the pending slot, purge() leaves the slot buffered (not Empty), and
the subsequent advance() returns exactly the value that was buffered
before the purge. -/
theorem purge_pending_slot_counterexample :
    ¬ ((Pipeline.purge cStage pipeBuf).2.pending_attributes = none) ∧
    (Pipeline.next cStage (Pipeline.purge cStage pipeBuf).2).1 =
      pipeBuf.pending_attributes := by
  exact ⟨by decide, rfl⟩

/-- Claim C1 amended: purge() purges the final stage (cascading through
the chain) but leaves the orchestrator's pending slot unchanged; in
particular a value buffered before the purge is returned by the next
advance(). -/
theorem purge_leaves_pending_slot {α σ : Type} (stage : PurgeableIterator α σ)
    (p : Pipeline α σ) :
    (Pipeline.purge stage p).2.pending_attributes = p.pending_attributes ∧
    (Pipeline.purge stage p).2.attributes = stage.purge p.attributes ∧
    (∀ v, p.pending_attributes = some v →
      (Pipeline.next stage (Pipeline.purge stage p).2).1 = some v) := by
  refine ⟨rfl, rfl, ?_⟩
  intro v hv
  unfold Pipeline.purge Pipeline.next
  simp [hv]

/-- Witness for purge_leaves_pending_slot at the concrete buffered
state. -/
theorem purge_leaves_pending_slot_witness :
    (Pipeline.next cStage (Pipeline.purge cStage pipeBuf).2).1 = some 7 :=
  (purge_leaves_pending_slot cStage pipeBuf).2.2 7 rfl

/-- Counterexample to claim C3 as stated: over a stage that is not
ready on the first pull and ready afterwards, two consecutive peek()
calls with no intervening advance() return different results (none,
then some 42) and pull from the final stage twice, refuting both "all
return the identical value (or all not ready)" and "pulling from the
final stage at most once in total". -/
theorem peek_repull_counterexample :
    (Pipeline.peek ceCStage pipeEmpty).1 = none ∧
    (Pipeline.peek ceCStage (Pipeline.peek ceCStage pipeEmpty).2).1 = some 42 ∧
    ¬ ((Pipeline.peek ceCStage (Pipeline.peek ceCStage pipeEmpty).2).2.attributes.2 ≤
        pipeEmpty.attributes.2 + 1) := by
  exact ⟨rfl, rfl, by decide⟩

/-- Claim C3 amended: once a peek() has returned a value, every further
peek() with no intervening advance() returns that identical value and
changes nothing (so the stage is not pulled again), and the following
advance() returns exactly that value and leaves the pending slot Empty
without pulling; after a peek() that returned not-ready, however, the
slot stays Empty, so the next peek() pulls from the stage again. -/
theorem peek_idempotent_once_buffered {α σ : Type}
    (stage : PurgeableIterator α σ) (p : Pipeline α σ) :
    (∀ v, (Pipeline.peek stage p).1 = some v →
      (∀ n, Pipeline.peekIter stage n (Pipeline.peek stage p).2 =
        (some v, (Pipeline.peek stage p).2)) ∧
      Pipeline.next stage (Pipeline.peek stage p).2 =
        (some v,
         { (Pipeline.peek stage p).2 with pending_attributes := none })) ∧
    ((Pipeline.peek stage p).1 = none →
      (Pipeline.peek stage p).2.pending_attributes = none) := by
  constructor
  · intro v hv
    have hq : (Pipeline.peek stage p).2.pending_attributes = some v :=
      (peek_pending_eq_result stage p).trans hv
    constructor
    · intro n
      induction n with
      | zero => exact peek_of_buffered stage _ v hq
      | succ n ih =>
        show Pipeline.peekIter stage n
          (Pipeline.peek stage (Pipeline.peek stage p).2).2 = _
        rw [peek_of_buffered stage ((Pipeline.peek stage p).2) v hq]
        exact ih
    · exact next_of_buffered stage _ v hq
  · intro hv
    exact (peek_pending_eq_result stage p).trans hv

/-- Witness for peek_idempotent_once_buffered: over the always-ready
stage the third consecutive peek still returns 42 with an unchanged
pull counter and the following advance consumes it; over the
never-ready stage the slot stays Empty. -/
theorem peek_idempotent_once_buffered_witness :
    (Pipeline.peekIter cStage 2 (Pipeline.peek cStage pipeEmpty).2 =
      (some 42, (Pipeline.peek cStage pipeEmpty).2)) ∧
    Pipeline.next cStage (Pipeline.peek cStage pipeEmpty).2 =
      (some 42,
       { (Pipeline.peek cStage pipeEmpty).2 with pending_attributes := none }) ∧
    (Pipeline.peek nCStage pipeEmpty).2.pending_attributes = none :=
  have h1 := (peek_idempotent_once_buffered cStage pipeEmpty).1 42 rfl
  have h2 := (peek_idempotent_once_buffered nCStage pipeEmpty).2 rfl
  ⟨h1.1 2, h1.2, h2⟩

/-- Claim C6: a sequence of submit calls into an open channel all
succeed and append their messages to the queue in exactly the call
order: nothing is dropped, reordered or duplicated by the channel, and
the messages are available to the first decoding stage (the queue's
consumer) in FIFO order. -/
theorem channel_fifo_order {α σ : Type} (p : Pipeline α σ)
    (L : List (List Bytes × Nat)) (h : p.channel.closed = false) :
    (Pipeline.pushAll p L).1 = Except.ok () ∧
    (Pipeline.pushAll p L).2.channel.queue =
      p.channel.queue ++
        L.map (fun b => BatcherTransactionMessage.mk (b.1.map bytesFrom) b.2) ∧
    (Pipeline.pushAll p L).2.channel.closed = false := by
  induction L generalizing p with
  | nil => simpa [Pipeline.pushAll] using h
  | cons b rest ih =>
    have hpush : Pipeline.push_batcher_transactions p b.1 b.2 =
        (Except.ok (),
         { p with channel :=
             { p.channel with queue :=
                 p.channel.queue ++
                   [BatcherTransactionMessage.mk (b.1.map bytesFrom) b.2] } }) := by
      unfold Pipeline.push_batcher_transactions Channel.send
      simp [h]
    have hall : Pipeline.pushAll p (b :: rest) =
        Pipeline.pushAll
          { p with channel :=
              { p.channel with queue :=
                  p.channel.queue ++
                    [BatcherTransactionMessage.mk (b.1.map bytesFrom) b.2] } }
          rest := by
      simp only [Pipeline.pushAll, hpush]
    have hrest := ih
      { p with channel :=
          { p.channel with queue :=
              p.channel.queue ++
                [BatcherTransactionMessage.mk (b.1.map bytesFrom) b.2] } } h
    rw [hall]
    refine ⟨hrest.1, ?_, hrest.2.2⟩
    rw [hrest.2.1]
    simp

/-- Witness for channel_fifo_order: two concrete submissions into a
fresh open channel land in the queue in call order. -/
theorem channel_fifo_order_witness :
    (Pipeline.pushAll pipeEmpty exBatches).1 = Except.ok () ∧
    (Pipeline.pushAll pipeEmpty exBatches).2.channel.queue =
      pipeEmpty.channel.queue ++
        exBatches.map
          (fun b => BatcherTransactionMessage.mk (b.1.map bytesFrom) b.2) ∧
    (Pipeline.pushAll pipeEmpty exBatches).2.channel.closed = false :=
  channel_fifo_order pipeEmpty exBatches rfl

end Magi
